import Mathlib

/-!
Verification of the image-to-ASCII converter (`src/ascii_art.py`).

The pipeline is embedded shallowly:
* a grayscale image is a width, a height and a pixel function with 8-bit values;
* `image_to_ascii_lines` mirrors the Python function of the same name:
  width check, aspect-corrected target height (`int` truncation, clamped to
  at least 1), resize, optional inversion, quantisation to a palette index
  (numpy `round`, which rounds halves to even, then `clip`), and the
  character lines;
* `render_ascii_to_image`'s geometry is embedded as `render_canvas_size`;
* `main`'s input resolution is embedded as `resolve_input` / `main_model`.

Rational arithmetic stands in for the Python float arithmetic: every
quantity that is rounded here has denominator 255 or 510, so its distance
to the nearest half-integer is at least 1/510, far above the float error of
the original expressions, and the rounded values coincide.
-/

/-- A grayscale pixel grid: `pixel x y` is the 8-bit intensity at column
`x`, row `y`. The bound mirrors the `uint8` storage of `np.array(gray)`. -/
structure GrayImage where
  width : ℕ
  height : ℕ
  pixel : ℕ → ℕ → ℕ
  pixel_le : ∀ x y, pixel x y ≤ 255

/-- Python's `int()` on a rational: truncation toward zero. -/
def truncQ (q : ℚ) : ℤ :=
  if 0 ≤ q then ⌊q⌋ else ⌈q⌉

/-- numpy's `.round()`: round half to even. -/
def roundHalfEven (q : ℚ) : ℤ :=
  if Int.fract q < 1/2 then ⌊q⌋
  else if 1/2 < Int.fract q then ⌊q⌋ + 1
  else if ⌊q⌋ % 2 = 0 then ⌊q⌋ else ⌊q⌋ + 1

/-- The character sets of the script (`CHARSETS` in `ascii_art.py`). -/
def CHARSETS : List (String × List Char) :=
  [("dense", ['@', '%', '#', '*', '+', '=', '-', ':', '.', ' ']),
   ("blocks", ['█', '▓', '▒', '░', ' ']),
   ("simple", ['#', '*', '+', '=', '-', ':', '.', ' ']),
   ("dots", ['•', ':', '·', '.', ' '])]

/-- `DEFAULT_CHARSET = "@%#*+=-:. "`. -/
def DEFAULT_CHARSET : List Char := ['@', '%', '#', '*', '+', '=', '-', ':', '.', ' ']

/-- The quantiser of lines 110-112 of `ascii_art.py`, as a palette index in ℤ:
`vals = 1 - v/255`, `idx = round(vals * (len(charset) - 1))`,
`idx = clip(idx, 0, len(charset) - 1)` (numpy `clip` applies the lower
bound first, then the upper). -/
def quantIdxZ (N : ℕ) (v : ℕ) : ℤ :=
  let vals : ℚ := 1 - (v : ℚ) / 255
  let idx := roundHalfEven (vals * ((N : ℚ) - 1))
  min (max idx 0) ((N : ℤ) - 1)

/-- Per-cell palette index: the optional inversion (`arr = 255 - arr`)
followed by quantisation. -/
def pixelIndex (charset : List Char) (invert : Bool) (a : ℕ) : ℕ :=
  (quantIdxZ charset.length (if invert then 255 - a else a)).toNat

/-- Modelled from the spec: PIL's `gray.resize((width, new_h), Image.BICUBIC)`
is a library call, absent from the source. The spec only relies on the
interpolation producing exactly the target dimensions, preserving constant
grids, and yielding intensities within the 8-bit range; it is modelled as
point sampling, which has all three properties. -/
def resizeGrid (img : GrayImage) (w h : ℕ) : GrayImage where
  width := w
  height := h
  pixel := fun x y =>
    img.pixel (min (img.width - 1) (x * img.width / w))
              (min (img.height - 1) (y * img.height / h))
  pixel_le := fun _ _ => img.pixel_le _ _

/-- Target height of lines 99-100: `ratio = width / float(w0)`,
`new_h = max(1, int(h0 * ratio * scale_y))`. -/
def targetHeight (w0 h0 W : ℕ) (scaleY : ℚ) : ℕ :=
  max 1 (truncQ ((h0 : ℚ) * ((W : ℚ) / (w0 : ℚ)) * scaleY)).toNat

/-- `image_to_ascii_lines` of `ascii_art.py`: width check, grayscale
conversion (the model's images are already grayscale), aspect-corrected
resize, inversion, quantisation, and the character lines. -/
def image_to_ascii_lines (img : GrayImage) (width : ℕ) (charset : List Char)
    (invert : Bool) (scaleY : ℚ) : Except String (List (List Char)) :=
  if width < 10 then
    .error "Width is too small. Try >= 40, ideally 80–200."
  else
    let new_h := targetHeight img.width img.height width scaleY
    let gray := resizeGrid img width new_h
    .ok ((List.range new_h).map fun y =>
      (List.range width).map fun x =>
        charset.getD (pixelIndex charset invert (gray.pixel x y)) ' ')

/-- A constant-intensity image, used for the uniform-grid claims. -/
def constImage (w h c : ℕ) (hc : c ≤ 255) : GrayImage where
  width := w
  height := h
  pixel := fun _ _ => c
  pixel_le := fun _ _ => hc

lemma fract_div255_ne_half (a : ℤ) : Int.fract ((a : ℚ) / 255) ≠ 1 / 2 := by
  intro h
  unfold Int.fract at h
  have h2 : (2 * a : ℚ) = 510 * ⌊(a : ℚ) / 255⌋ + 255 := by
    field_simp at h
    linarith
  have h3 : (2 * a : ℤ) = 510 * ⌊(a : ℚ) / 255⌋ + 255 := by exact_mod_cast h2
  omega

lemma roundHalfEven_eq_round (q : ℚ) (h : Int.fract q ≠ 1 / 2) :
    roundHalfEven q = round q := by
  rw [roundHalfEven, round_eq]
  have hle := Int.floor_le q
  have hlt := Int.lt_floor_add_one q
  rcases lt_or_gt_of_ne h with hlt2 | hgt
  · rw [if_pos hlt2]
    unfold Int.fract at hlt2
    symm
    rw [Int.floor_eq_iff]
    exact ⟨by linarith, by linarith⟩
  · rw [if_neg (by linarith), if_pos hgt]
    unfold Int.fract at hgt
    symm
    rw [Int.floor_eq_iff]
    constructor <;> push_cast <;> linarith

lemma roundHalfEven_div255 (a : ℤ) :
    roundHalfEven ((a : ℚ) / 255) = (2 * a + 255) / 510 := by
  rw [roundHalfEven_eq_round _ (fract_div255_ne_half a), round_eq]
  have h : (a : ℚ) / 255 + 1 / 2 = ((2 * a + 255 : ℤ) : ℚ) / ((510 : ℕ) : ℚ) := by
    push_cast
    ring
  rw [h, Rat.floor_intCast_div_natCast]
  norm_num

lemma quantIdxZ_eq (N v : ℕ) :
    quantIdxZ N v =
      min (max ((2 * ((255 - (v : ℤ)) * ((N : ℤ) - 1)) + 255) / 510) 0) ((N : ℤ) - 1) := by
  have h1 : (1 - (v : ℚ) / 255) * ((N : ℚ) - 1) =
      (((255 - (v : ℤ)) * ((N : ℤ) - 1) : ℤ) : ℚ) / 255 := by
    push_cast
    ring
  have h2 : quantIdxZ N v =
      min (max (roundHalfEven ((1 - (v : ℚ) / 255) * ((N : ℚ) - 1))) 0) ((N : ℤ) - 1) := rfl
  rw [h2, h1, roundHalfEven_div255]

/-- The quantiser as the spec words it: palette index
`round((1 − v/255) · (N−1))`, clamped to `[0, N−1]` (Mathlib's `round`,
which rounds halves up; the no-tie lemma `fract_div255_ne_half` makes the
tie-breaking direction immaterial here). -/
def specQuantIdx (N v : ℕ) : ℤ :=
  min (max (round ((1 - (v : ℚ) / 255) * ((N : ℚ) - 1))) 0) ((N : ℤ) - 1)

/-- `char_cell_size` of `ascii_art.py`: from `bbox = font.getbbox("A")`
(the PIL measurement, taken as the four parameters), `cw = bbox[2] - bbox[0]`,
`ch = bbox[3] - bbox[1]`, returning `(max(1, cw), max(1, ch))`. -/
def char_cell_size (x0 y0 x1 y1 : ℤ) : ℕ × ℕ :=
  ((max 1 (x1 - x0)).toNat, (max 1 (y1 - y0)).toNat)

/-- `max((len(line) for line in lines), default=0)`. -/
def maxLineLen (lines : List (List Char)) : ℕ :=
  lines.foldl (fun m l => max m l.length) 0

/-- Canvas geometry of `render_ascii_to_image` (lines 139-150 of
`ascii_art.py`): row count and maximal line length, the degenerate-grid
replacement (`num_cols = num_rows = 1`, `lines = [""]` — the replacement
line only affects drawing, not the size), and the canvas size
`(max(1, num_cols*cw), max(1, num_rows*ch))`. -/
def render_canvas_size (lines : List (List Char)) (cw ch : ℕ) : ℕ × ℕ :=
  let numRows := lines.length
  let numCols := maxLineLen lines
  if numCols = 0 ∨ numRows = 0 then
    (max 1 (1 * cw), max 1 (1 * ch))
  else
    (max 1 (numCols * cw), max 1 (numRows * ch))

/-- Input resolution of `main` (lines 182-193 of `ascii_art.py`): with
`--demo` the path `examples/demo.png` is used (generated when absent);
otherwise a missing `--input` or a nonexistent path aborts via
`SystemExit` with the given message. `fexists` is the file-system
`Path.exists` oracle. -/
def resolve_input (demo : Bool) (input : Option String) (fexists : String → Bool) :
    Except String String :=
  if demo then .ok "examples/demo.png"
  else
    match input with
    | none => .error "Error: provide --input <path> or use --demo."
    | some p => if fexists p then .ok p else .error ("Error: input image not found: " ++ p)

/-- `main` up to the ASCII conversion: resolve the input, load the image
(`load` is the decoding oracle), pick the charset by name, convert. An
`error` value is the abort, occurring before any output is produced. -/
def main_model (demo : Bool) (input : Option String) (fexists : String → Bool)
    (load : String → GrayImage) (W : ℕ) (csName : String) (invert : Bool) (s : ℚ) :
    Except String (List (List Char)) :=
  match resolve_input demo input fexists with
  | .error e => .error e
  | .ok p =>
      image_to_ascii_lines (load p) W ((CHARSETS.lookup csName).getD DEFAULT_CHARSET) invert s

/-- A concrete 2×3 all-black image, used for concrete instantiations. -/
def img2x3 : GrayImage := constImage 2 3 0 (by norm_num)

/-- A concrete 4×4 mid-gray image, used for concrete instantiations. -/
def img4x4 : GrayImage := constImage 4 4 128 (by norm_num)

lemma clampDiv_mirror (a b m : ℤ) (ha : 0 ≤ a) (hb : 0 ≤ b) (hab : a + b = 255 * m) :
    min (max ((2 * a + 255) / 510) 0) m = m - min (max ((2 * b + 255) / 510) 0) m := by
  have h1 : 0 ≤ (2 * a + 255) / 510 := Int.ediv_nonneg (by omega) (by omega)
  have h2 : (2 * a + 255) / 510 ≤ m := by omega
  have h3 : 0 ≤ (2 * b + 255) / 510 := Int.ediv_nonneg (by omega) (by omega)
  have h4 : (2 * b + 255) / 510 ≤ m := by omega
  rw [max_eq_left h1, max_eq_left h3, min_eq_left h2, min_eq_left h4]
  omega

lemma quantIdxZ_nonneg (N v : ℕ) (hN : 1 ≤ N) : 0 ≤ quantIdxZ N v := by
  rw [quantIdxZ_eq]
  exact le_min (le_max_right _ 0) (by omega)

lemma quantIdxZ_le (N v : ℕ) : quantIdxZ N v ≤ (N : ℤ) - 1 := by
  rw [quantIdxZ_eq]
  exact min_le_right _ _

lemma quantIdxZ_invert (N v : ℕ) (hN : 1 ≤ N) (hv : v ≤ 255) :
    quantIdxZ N (255 - v) = ((N : ℤ) - 1) - quantIdxZ N v := by
  rw [quantIdxZ_eq, quantIdxZ_eq]
  have hc : ((255 - v : ℕ) : ℤ) = 255 - (v : ℤ) := by omega
  rw [hc]
  have e1 : (255 - (255 - (v : ℤ))) * ((N : ℤ) - 1) = (v : ℤ) * ((N : ℤ) - 1) := by ring
  rw [e1]
  refine clampDiv_mirror _ _ _ ?_ ?_ (by ring)
  · exact mul_nonneg (by omega) (by omega)
  · exact mul_nonneg (by omega) (by omega)

lemma pixelIndex_lt (cs : List Char) (hN : 1 ≤ cs.length) (invert : Bool) (a : ℕ) :
    pixelIndex cs invert a < cs.length := by
  unfold pixelIndex
  have h1 := quantIdxZ_le cs.length (if invert then 255 - a else a)
  have h2 := quantIdxZ_nonneg cs.length (if invert then 255 - a else a) hN
  omega

lemma quantIdxZ_zero (N : ℕ) (hN : 1 ≤ N) : quantIdxZ N 0 = (N : ℤ) - 1 := by
  rw [quantIdxZ_eq]
  have h : (2 * ((255 - ((0 : ℕ) : ℤ)) * ((N : ℤ) - 1)) + 255) / 510 = (N : ℤ) - 1 := by
    have e : (255 - ((0 : ℕ) : ℤ)) * ((N : ℤ) - 1) = 255 * ((N : ℤ) - 1) := by push_cast; ring
    rw [e]
    omega
  rw [h]
  have hm : (0 : ℤ) ≤ (N : ℤ) - 1 := by omega
  rw [max_eq_left hm, min_self]

lemma quantIdxZ_255 (N : ℕ) : quantIdxZ N 255 = min 0 ((N : ℤ) - 1) := by
  rw [quantIdxZ_eq]
  have e : (255 - ((255 : ℕ) : ℤ)) * ((N : ℤ) - 1) = 0 := by push_cast; ring
  rw [e]
  norm_num

lemma image_to_ascii_lines_ok (img : GrayImage) (W : ℕ) (cs : List Char) (inv : Bool)
    (s : ℚ) (hW : ¬ W < 10) :
    image_to_ascii_lines img W cs inv s =
      .ok ((List.range (targetHeight img.width img.height W s)).map fun y =>
        (List.range W).map fun x =>
          cs.getD (pixelIndex cs inv
            ((resizeGrid img W (targetHeight img.width img.height W s)).pixel x y)) ' ') := by
  unfold image_to_ascii_lines
  rw [if_neg hW]

lemma image_to_ascii_lines_const (w h c : ℕ) (hc : c ≤ 255) (W : ℕ) (cs : List Char)
    (inv : Bool) (s : ℚ) (hW : ¬ W < 10) :
    image_to_ascii_lines (constImage w h c hc) W cs inv s =
      .ok (List.replicate (targetHeight w h W s)
        (List.replicate W (cs.getD (pixelIndex cs inv c) ' '))) := by
  rw [image_to_ascii_lines_ok _ _ _ _ _ hW]
  simp [resizeGrid, constImage]

lemma conv_ok_shape (img : GrayImage) (W : ℕ) (cs : List Char) (inv : Bool) (s : ℚ)
    (ls : List (List Char)) (h : image_to_ascii_lines img W cs inv s = .ok ls) :
    ls.map List.length = List.replicate (targetHeight img.width img.height W s) W := by
  by_cases hW : W < 10
  · unfold image_to_ascii_lines at h
    rw [if_pos hW] at h
    simp at h
  · rw [image_to_ascii_lines_ok _ _ _ _ _ hW] at h
    injection h with h'
    subst h'
    simp [List.map_map, Function.comp_def]

lemma pixelIndex_false_zero (cs : List Char) (hN : 1 ≤ cs.length) :
    pixelIndex cs false 0 = cs.length - 1 := by
  show (quantIdxZ cs.length 0).toNat = cs.length - 1
  rw [quantIdxZ_zero cs.length hN]
  omega

lemma pixelIndex_true_zero (cs : List Char) (hN : 1 ≤ cs.length) :
    pixelIndex cs true 0 = 0 := by
  show (quantIdxZ cs.length 255).toNat = 0
  rw [quantIdxZ_255]
  rw [min_eq_left (by omega : (0 : ℤ) ≤ (cs.length : ℤ) - 1)]
  rfl

lemma pixelIndex_invert (cs : List Char) (hN : 1 ≤ cs.length) (a : ℕ) (ha : a ≤ 255) :
    pixelIndex cs true a = (cs.length - 1) - pixelIndex cs false a := by
  have h1 := quantIdxZ_invert cs.length a hN ha
  have h2 := quantIdxZ_nonneg cs.length a hN
  have h3 := quantIdxZ_le cs.length a
  show (quantIdxZ cs.length (255 - a)).toNat = cs.length - 1 - (quantIdxZ cs.length a).toNat
  omega

lemma targetHeight_2_3_10 : targetHeight 2 3 10 (1/2) = 7 := by
  unfold targetHeight truncQ
  rw [if_pos (by positivity)]
  norm_num
  decide

lemma conv_img2x3_eval :
    image_to_ascii_lines img2x3 10 DEFAULT_CHARSET false (1/2) =
      .ok (List.replicate 7 (List.replicate 10 ' ')) := by
  show image_to_ascii_lines (constImage 2 3 0 (by norm_num)) 10 DEFAULT_CHARSET false (1/2) = _
  rw [image_to_ascii_lines_const 2 3 0 (by norm_num) 10 DEFAULT_CHARSET false (1/2)
    (by norm_num), targetHeight_2_3_10, pixelIndex_false_zero DEFAULT_CHARSET (by decide)]
  rfl

/-- C1 (amended): for every source grid, target width `W ≥ 10` and scale
factor `s`, the resampled character grid has exactly `W` columns and
exactly `max(1, int(H0 · (W/W0) · s))` rows, where `int` truncates toward
zero — the code uses Python `int()` and a lower clamp of 1, not `round`. -/
theorem c1_resampled_grid_dims (img : GrayImage) (W : ℕ) (cs : List Char) (inv : Bool)
    (s : ℚ) (ls : List (List Char)) (h : image_to_ascii_lines img W cs inv s = .ok ls) :
    ls.map List.length =
      List.replicate
        (max 1 (truncQ ((img.height : ℚ) * ((W : ℚ) / (img.width : ℚ)) * s)).toNat) W :=
  conv_ok_shape img W cs inv s ls h

theorem c1_resampled_grid_dims_witness :
    (List.replicate 7 (List.replicate 10 ' ')).map List.length = List.replicate 7 10 := by
  have h := c1_resampled_grid_dims img2x3 10 DEFAULT_CHARSET false (1/2) _ conv_img2x3_eval
  rw [h]
  exact congrArg (fun n => List.replicate n 10) targetHeight_2_3_10

/-- C1 counterexample: a 2×3 black grid resized to width 10 with
`s = 1/2` yields 7 rows (`int(3 · 5 · 0.5) = int(7.5) = 7`), while the
claim's formula `round(H0 · (W/W0) · s) = round(7.5)` is 8. -/
theorem c1_counterexample :
    image_to_ascii_lines img2x3 10 DEFAULT_CHARSET false (1/2) =
      .ok (List.replicate 7 (List.replicate 10 ' '))
    ∧ (List.replicate 7 (List.replicate 10 ' ')).length = 7
    ∧ round ((3 : ℚ) * ((10 : ℚ) / (2 : ℚ)) * (1/2)) = 8
    ∧ (7 : ℕ) ≠ 8 :=
  ⟨conv_img2x3_eval, by simp, by norm_num [round_eq], by norm_num⟩

/-- C2: for every intensity `v` and every palette size `N`, the code's
quantiser (`numpy`'s half-even `round` then `clip`) assigns exactly the
palette index the spec states: `round((1 − v/255) · (N−1))` clamped to
`[0, N−1]`; no tie ever arises, so the rounding conventions agree. -/
theorem c2_quantizer_formula (N v : ℕ) : quantIdxZ N v = specQuantIdx N v := by
  have h1 : (1 - (v : ℚ) / 255) * ((N : ℚ) - 1) =
      (((255 - (v : ℤ)) * ((N : ℤ) - 1) : ℤ) : ℚ) / 255 := by
    push_cast
    ring
  have h2 : quantIdxZ N v =
      min (max (roundHalfEven ((1 - (v : ℚ) / 255) * ((N : ℚ) - 1))) 0) ((N : ℤ) - 1) := rfl
  unfold specQuantIdx
  rw [h2, h1, roundHalfEven_eq_round _ (fract_div255_ne_half _)]

/-- C3: at every cell of the resampled grid, the palette index computed
with the invert flag set is the palette mirror of the index computed with
it clear: `idx_inverted = (N−1) − idx_original`. -/
theorem c3_invert_mirrors_index (img : GrayImage) (W : ℕ) (cs : List Char) (s : ℚ)
    (x y : ℕ) (hN : 1 ≤ cs.length) :
    pixelIndex cs true ((resizeGrid img W (targetHeight img.width img.height W s)).pixel x y)
      = (cs.length - 1) -
        pixelIndex cs false
          ((resizeGrid img W (targetHeight img.width img.height W s)).pixel x y) :=
  pixelIndex_invert cs hN _ ((resizeGrid img W _).pixel_le x y)

theorem c3_invert_mirrors_index_witness :
    pixelIndex DEFAULT_CHARSET true
        ((resizeGrid img2x3 10 (targetHeight img2x3.width img2x3.height 10 (1/2))).pixel 0 0)
      = (DEFAULT_CHARSET.length - 1) -
        pixelIndex DEFAULT_CHARSET false
          ((resizeGrid img2x3 10 (targetHeight img2x3.width img2x3.height 10 (1/2))).pixel 0 0) :=
  c3_invert_mirrors_index img2x3 10 DEFAULT_CHARSET (1/2) 0 0 (by decide)

/-- C4: converting an all-zero (black) grid with `invert = false` yields
the last palette character at every position, and with `invert = true`
the first palette character at every position. -/
theorem c4_black_grid (w h W : ℕ) (cs : List Char) (s : ℚ)
    (hN : 1 ≤ cs.length) (hW : 10 ≤ W) :
    image_to_ascii_lines (constImage w h 0 (by norm_num)) W cs false s =
      .ok (List.replicate (targetHeight w h W s)
        (List.replicate W (cs.getD (cs.length - 1) ' ')))
    ∧ image_to_ascii_lines (constImage w h 0 (by norm_num)) W cs true s =
      .ok (List.replicate (targetHeight w h W s) (List.replicate W (cs.getD 0 ' '))) := by
  constructor
  · rw [image_to_ascii_lines_const w h 0 (by norm_num) W cs false s (by omega),
      pixelIndex_false_zero cs hN]
  · rw [image_to_ascii_lines_const w h 0 (by norm_num) W cs true s (by omega),
      pixelIndex_true_zero cs hN]

theorem c4_black_grid_witness :
    image_to_ascii_lines (constImage 2 3 0 (by norm_num)) 10 DEFAULT_CHARSET false (1/2) =
      .ok (List.replicate (targetHeight 2 3 10 (1/2))
        (List.replicate 10 (DEFAULT_CHARSET.getD (DEFAULT_CHARSET.length - 1) ' ')))
    ∧ image_to_ascii_lines (constImage 2 3 0 (by norm_num)) 10 DEFAULT_CHARSET true (1/2) =
      .ok (List.replicate (targetHeight 2 3 10 (1/2))
        (List.replicate 10 (DEFAULT_CHARSET.getD 0 ' '))) :=
  c4_black_grid 2 3 10 DEFAULT_CHARSET (1/2) (by decide) (by norm_num)

/-- C5 (amended): the code's minimum width is 10 (not the spec's
illustrative 5): every `W < 10` raises the configuration error, and every
`W ≥ 10` succeeds without it. -/
theorem c5_min_width_threshold (img : GrayImage) (cs : List Char) (inv : Bool)
    (s : ℚ) (W : ℕ) :
    (W < 10 →
      image_to_ascii_lines img W cs inv s =
        .error "Width is too small. Try >= 40, ideally 80–200.")
    ∧ (10 ≤ W → ∃ ls, image_to_ascii_lines img W cs inv s = .ok ls) := by
  constructor
  · intro hW
    unfold image_to_ascii_lines
    rw [if_pos hW]
  · intro hW
    exact ⟨_, image_to_ascii_lines_ok img W cs inv s (by omega)⟩

theorem c5_min_width_threshold_witness :
    image_to_ascii_lines img2x3 9 DEFAULT_CHARSET false (1/2) =
      .error "Width is too small. Try >= 40, ideally 80–200."
    ∧ ∃ ls, image_to_ascii_lines img2x3 80 DEFAULT_CHARSET false (1/2) = .ok ls :=
  ⟨(c5_min_width_threshold img2x3 DEFAULT_CHARSET false (1/2) 9).1 (by norm_num),
   (c5_min_width_threshold img2x3 DEFAULT_CHARSET false (1/2) 80).2 (by norm_num)⟩

/-- C5 counterexample: width 5 — at or above the claim's exemplified
minimum threshold of 5 — still raises the width error, because the code's
threshold is 10. -/
theorem c5_counterexample :
    image_to_ascii_lines img2x3 5 DEFAULT_CHARSET false (1/2) =
      .error "Width is too small. Try >= 40, ideally 80–200." := by
  unfold image_to_ascii_lines
  rw [if_pos (by norm_num)]

/-- C6: a uniform-intensity source grid converts to a grid in which every
position holds the same single character. -/
theorem c6_uniform_grid (w h c W : ℕ) (hc : c ≤ 255) (cs : List Char) (inv : Bool)
    (s : ℚ) (ls : List (List Char))
    (hok : image_to_ascii_lines (constImage w h c hc) W cs inv s = .ok ls) :
    ls = List.replicate (targetHeight w h W s)
      (List.replicate W (cs.getD (pixelIndex cs inv c) ' ')) := by
  by_cases hW : W < 10
  · unfold image_to_ascii_lines at hok
    rw [if_pos hW] at hok
    simp at hok
  · rw [image_to_ascii_lines_const w h c hc W cs inv s hW] at hok
    injection hok with h'
    exact h'.symm

theorem c6_uniform_grid_witness :
    List.replicate 7 (List.replicate 10 ' ') =
      List.replicate (targetHeight 2 3 10 (1/2))
        (List.replicate 10 (DEFAULT_CHARSET.getD (pixelIndex DEFAULT_CHARSET false 0) ' ')) :=
  c6_uniform_grid 2 3 0 10 (by norm_num) DEFAULT_CHARSET false (1/2) _ conv_img2x3_eval

/-- C7: with `(cw, ch)` measured by `char_cell_size` (hence both at least 1),
a character grid with zero rows or zero columns yields exactly one glyph
cell `(cw, ch)`, of non-zero area, and a non-degenerate grid yields the
canvas `(cols·cw, rows·ch)`. -/
theorem c7_render_canvas (lines : List (List Char)) (x0 y0 x1 y1 : ℤ) (cw ch : ℕ)
    (hc : char_cell_size x0 y0 x1 y1 = (cw, ch)) :
    ((lines.length = 0 ∨ maxLineLen lines = 0) →
      render_canvas_size lines cw ch = (cw, ch) ∧ 0 < cw * ch)
    ∧ (0 < lines.length → 0 < maxLineLen lines →
      render_canvas_size lines cw ch = (maxLineLen lines * cw, lines.length * ch)) := by
  have hcw : 1 ≤ cw := by
    have h1 := congrArg Prod.fst hc
    simp only [char_cell_size] at h1
    have h2 : (1 : ℤ) ≤ max 1 (x1 - x0) := le_max_left _ _
    omega
  have hch : 1 ≤ ch := by
    have h1 := congrArg Prod.snd hc
    simp only [char_cell_size] at h1
    have h2 : (1 : ℤ) ≤ max 1 (y1 - y0) := le_max_left _ _
    omega
  constructor
  · intro hdeg
    unfold render_canvas_size
    rw [if_pos (Or.symm hdeg)]
    refine ⟨?_, by positivity⟩
    rw [one_mul, one_mul, Nat.max_eq_right hcw, Nat.max_eq_right hch]
  · intro h1 h2
    unfold render_canvas_size
    rw [if_neg (by omega)]
    rw [Nat.max_eq_right (Nat.one_le_iff_ne_zero.mpr (by positivity)),
      Nat.max_eq_right (Nat.one_le_iff_ne_zero.mpr (by positivity))]

theorem c7_render_canvas_witness :
    render_canvas_size ([] : List (List Char)) 7 11 = (7, 11) ∧ 0 < 7 * 11 :=
  (c7_render_canvas [] 0 0 7 11 7 11 rfl).1 (Or.inl rfl)

/-- C8 (amended): with the demo flag clear, a run with no input path, and a
run whose given input path does not exist, both terminate with the
descriptive `SystemExit` error before producing any output. -/
theorem c8_missing_input_aborts (fexists : String → Bool) (load : String → GrayImage)
    (W : ℕ) (csName : String) (inv : Bool) (s : ℚ) (p : String) :
    main_model false none fexists load W csName inv s =
      .error "Error: provide --input <path> or use --demo."
    ∧ (fexists p = false →
      main_model false (some p) fexists load W csName inv s =
        .error ("Error: input image not found: " ++ p)) := by
  constructor
  · rfl
  · intro hp
    simp [main_model, resolve_input, hp]

theorem c8_missing_input_aborts_witness :
    main_model false none (fun _ => false) (fun _ => img4x4) 80 "dense" false (1/2) =
      .error "Error: provide --input <path> or use --demo."
    ∧ main_model false (some "missing.png") (fun _ => false) (fun _ => img4x4)
        80 "dense" false (1/2) =
      .error ("Error: input image not found: " ++ "missing.png") :=
  ⟨(c8_missing_input_aborts (fun _ => false) (fun _ => img4x4) 80 "dense" false
      (1/2) "missing.png").1,
   (c8_missing_input_aborts (fun _ => false) (fun _ => img4x4) 80 "dense" false
      (1/2) "missing.png").2 rfl⟩

/-- C8 counterexample: a run whose given input path does not exist but whose
demo flag is set does not terminate with an error — the demo branch wins
and the conversion output is produced. -/
theorem c8_counterexample :
    main_model true (some "missing.png") (fun _ => false) (fun _ => img4x4)
        10 "dense" false (1/2)
      = .ok (List.replicate 5 (List.replicate 10 '+')) := by
  show image_to_ascii_lines img4x4 10 ((CHARSETS.lookup "dense").getD DEFAULT_CHARSET)
    false (1/2) = _
  have hl : (CHARSETS.lookup "dense").getD DEFAULT_CHARSET = DEFAULT_CHARSET := rfl
  rw [hl]
  show image_to_ascii_lines (constImage 4 4 128 (by norm_num)) 10 DEFAULT_CHARSET
    false (1/2) = _
  rw [image_to_ascii_lines_const 4 4 128 (by norm_num) 10 DEFAULT_CHARSET false (1/2)
    (by norm_num)]
  have ht : targetHeight 4 4 10 (1/2) = 5 := by
    unfold targetHeight truncQ
    rw [if_pos (by positivity)]
    norm_num
    decide
  have hpix : pixelIndex DEFAULT_CHARSET false 128 = 4 := by
    show (quantIdxZ 10 128).toNat = 4
    rw [quantIdxZ_eq]
    decide
  rw [ht, hpix]
  rfl

/-- C9: for every preset palette, every input, width, invert flag and scale
factor, every character of every output line is a member of that palette. -/
theorem c9_output_chars_in_palette (p : String × List Char) (hp : p ∈ CHARSETS)
    (img : GrayImage) (W : ℕ) (inv : Bool) (s : ℚ) (ls : List (List Char))
    (h : image_to_ascii_lines img W p.2 inv s = .ok ls) :
    ∀ l ∈ ls, ∀ c ∈ l, c ∈ p.2 := by
  have hN : 1 ≤ p.2.length := by
    simp only [CHARSETS, List.mem_cons, List.not_mem_nil, or_false] at hp
    rcases hp with h1 | h1 | h1 | h1 <;> subst h1 <;> decide
  by_cases hW : W < 10
  · unfold image_to_ascii_lines at h
    rw [if_pos hW] at h
    simp at h
  · rw [image_to_ascii_lines_ok _ _ _ _ _ hW] at h
    injection h with h'
    subst h'
    intro l hl c hc
    simp only [List.mem_map, List.mem_range] at hl
    obtain ⟨y, _, rfl⟩ := hl
    simp only [List.mem_map, List.mem_range] at hc
    obtain ⟨x, _, rfl⟩ := hc
    have hidx := pixelIndex_lt p.2 hN inv
      ((resizeGrid img W (targetHeight img.width img.height W s)).pixel x y)
    rw [List.getD_eq_getElem p.2 ' ' hidx]
    exact List.getElem_mem hidx

theorem c9_output_chars_in_palette_witness :
    (' ' : Char) ∈ ("dense", ['@', '%', '#', '*', '+', '=', '-', ':', '.', ' ']).2 :=
  c9_output_chars_in_palette ("dense", ['@', '%', '#', '*', '+', '=', '-', ':', '.', ' '])
    (by simp [CHARSETS]) img2x3 10 false (1/2)
    (List.replicate 7 (List.replicate 10 ' ')) conv_img2x3_eval
    (List.replicate 10 ' ') (by simp) ' ' (by simp)

/-- C10: whenever the conversion produces output, the output has at least
one row — the target height is clamped below at 1 even when
`H0 · (W/W0) · s` truncates to zero or below. -/
theorem c10_at_least_one_row (img : GrayImage) (W : ℕ) (cs : List Char) (inv : Bool)
    (s : ℚ) (ls : List (List Char)) (h : image_to_ascii_lines img W cs inv s = .ok ls) :
    1 ≤ ls.length := by
  have hs := conv_ok_shape img W cs inv s ls h
  have hlen := congrArg List.length hs
  simp only [List.length_map, List.length_replicate] at hlen
  rw [hlen]
  exact le_max_left 1 _

theorem c10_at_least_one_row_witness :
    1 ≤ (List.replicate 7 (List.replicate 10 ' ')).length :=
  c10_at_least_one_row img2x3 10 DEFAULT_CHARSET false (1/2) _ conv_img2x3_eval
